import Mathlib

/-!
Verification of the ESP32 + R307 fingerprint capture program
(src/Thonny/final2.py): packet codec, streaming bridge, finger-presence
monitor and the two capture-mode loops, shallowly embedded over byte
streams modelled as `List Nat` (each element a byte value).
-/

namespace AFIS

/-- `STARTCODE = 0xEF01`, the two-byte frame start marker. -/
def STARTCODE : Nat := 0xEF01

/-- `PACKET_COMMAND = 0x01`. -/
def PACKET_COMMAND : Nat := 0x01

/-- `PACKET_ACK = 0x07`. -/
def PACKET_ACK : Nat := 0x07

/-- `PACKET_DATA = 0x02`. -/
def PACKET_DATA : Nat := 0x02

/-- `PACKET_DATA_END = 0x08`. -/
def PACKET_DATA_END : Nat := 0x08

/-- `CMD_DOWNLOADIMAGE = 0x0A`. -/
def CMD_DOWNLOADIMAGE : Nat := 0x0A

/-- Image width `W = 256`. -/
def W : Nat := 256

/-- Image height `H = 288`. -/
def H : Nat := 288

/-- `PACKED_LEN = (W * H) // 2`. -/
def PACKED_LEN : Nat := W * H / 2

/-- `SAMPLES_PER_PERSON = 3`. -/
def SAMPLES_PER_PERSON : Nat := 3

/-- `_be16(n)`: the two big-endian bytes `[(n>>8)&0xFF, n&0xFF]`. -/
def be16 (n : Nat) : List Nat := [(n >>> 8) % 256, n % 256]

/-- `address.to_bytes(4, 'big')`: four big-endian bytes of the address. -/
def toBytes4 (a : Nat) : List Nat :=
  [(a >>> 24) % 256, (a >>> 16) % 256, (a >>> 8) % 256, a % 256]

/-- `_write_packet(uart, address, ptype, payload_bytes)`: the exact byte
string written to the UART.  `plen = len(payload)+2`; the checksum is
`(ptype + hdr[-2] + hdr[-1] + sum(payload)) & 0xFFFF` where `hdr[-2]`,
`hdr[-1]` are the two length bytes. -/
def writePacket (address ptype : Nat) (payload : List Nat) : List Nat :=
  let plen := payload.length + 2
  let hdr := be16 STARTCODE ++ toBytes4 address ++ [ptype] ++ be16 plen
  let cs := (ptype + (plen >>> 8) % 256 + plen % 256 + payload.sum) % 65536
  hdr ++ payload ++ be16 cs

/-- `_read_exact(uart, n)`: block until `n` bytes are available or time
out.  The UART is modelled by the list of bytes that will arrive: if at
least `n` bytes are there the call returns them (and the remainder of the
stream); otherwise it times out returning `none`, the partial bytes it
read being consumed from the stream. -/
def readExact (s : List Nat) (n : Nat) : Option (List Nat × List Nat) :=
  if n ≤ s.length then some (s.take n, s.drop n) else none

/-- The exceptions `_read_packet` can raise.  `indexError` models the
`IndexError` escaping from `rest[-2]` when the received body is a single
byte; the others correspond to the explicit `raise` statements. -/
inductive DErr
  | timeoutHeader
  | badStartcode
  | timeoutBody
  | indexError
  | badChecksum
  deriving DecidableEq

/-- `_read_packet(uart)` on a pending byte stream `s`: the parse result
together with the bytes left unread on the UART afterwards.  Mirrors the
source line by line: read 9 header bytes (else `timeout header`), check
the two marker bytes (else `bad startcode`), take `ptype = hdr[6]` and
`plen = hdr[7]<<8 | hdr[8]`, read `plen` body bytes — an empty body is
falsy in Python and raises `timeout body`; a one-byte body raises
`IndexError` at `rest[-2]` — split off the payload `rest[:-2]`,
recompute the checksum and compare (else `bad checksum`). -/
def readPacket (s : List Nat) : Except DErr (Nat × List Nat) × List Nat :=
  match readExact s 9 with
  | none => (Except.error DErr.timeoutHeader, [])
  | some (hdr, s1) =>
    if hdr.getD 0 0 ≠ STARTCODE >>> 8 ∨ hdr.getD 1 0 ≠ STARTCODE % 256 then
      (Except.error DErr.badStartcode, s1)
    else
      let ptype := hdr.getD 6 0
      let plen := hdr.getD 7 0 * 256 + hdr.getD 8 0
      match readExact s1 plen with
      | none => (Except.error DErr.timeoutBody, [])
      | some (rest, s2) =>
        if rest.length = 0 then (Except.error DErr.timeoutBody, s2)
        else if rest.length < 2 then (Except.error DErr.indexError, s2)
        else
          let payload := rest.take (rest.length - 2)
          let rxcs := rest.getD (rest.length - 2) 0 * 256 + rest.getD (rest.length - 1) 0
          let calcCs := (ptype + hdr.getD 7 0 + hdr.getD 8 0 + payload.sum) % 65536
          if rxcs ≠ calcCs then (Except.error DErr.badChecksum, s2)
          else (Except.ok (ptype, payload), s2)

/-- The failures `stream_upimage_to_http` can raise: a propagated
`_read_packet` exception, the `UpImage NACK code=..` exception (code is
`payload[0]`, or `-1` when the payload is empty), and the
`unexpected packet ..` exception from the data loop. -/
inductive SErr
  | protocol (e : DErr)
  | nack (code : Int)
  | unexpected (t : Nat)
  deriving DecidableEq

/-- Fuel-indexed version of the `while True` DATA read loop of
`stream_upimage_to_http`.  One fuel unit per iteration; every successful
iteration consumes at least 11 stream bytes, so `s.length + 1` fuel can
never be exhausted (`readLoop_eq` below recovers the fuel-free unfolding).
Per iteration: read a frame (a `_read_packet` exception propagates),
require type DATA or DATA_END (else raise `unexpected packet`), append
the payload to the sink (`sock.send`), add its length to `sent`, and stop
after a DATA_END frame.  Returns (sink bytes written, bytes left unread
on the UART, result). -/
def readLoopAux : Nat → List Nat → List Nat → Nat → List Nat × List Nat × Except SErr Nat
  | 0, s, sink, _sent => (sink, s, Except.error (SErr.protocol DErr.timeoutHeader))
  | fuel + 1, s, sink, sent =>
    match readPacket s with
    | (Except.error e, left) => (sink, left, Except.error (SErr.protocol e))
    | (Except.ok tp, s2) =>
      if tp.1 ≠ PACKET_DATA ∧ tp.1 ≠ PACKET_DATA_END then
        (sink, s2, Except.error (SErr.unexpected tp.1))
      else if tp.1 = PACKET_DATA_END then (sink ++ tp.2, s2, Except.ok (sent + tp.2.length))
      else readLoopAux fuel s2 (sink ++ tp.2) (sent + tp.2.length)

/-- The DATA read loop of `stream_upimage_to_http` on stream `s`, with
accumulated sink bytes `sink` and byte counter `sent`. -/
def readLoop (s sink : List Nat) (sent : Nat) : List Nat × List Nat × Except SErr Nat :=
  readLoopAux (s.length + 1) s sink sent

/-- `stream_upimage_to_http(uart, address, sock)` on the reply byte
stream `s` (the initial `_write_packet` of the download COMMAND only
affects the TX direction).  Read one reply frame; unless it is an ACK
with a nonempty payload whose byte 0 is `0x00`, raise the
`UpImage NACK code=..` exception with `code = payload[0] if payload
else -1`; otherwise run the DATA loop.  Returns (bytes forwarded to the
sink, bytes left unread, result byte count). -/
def stream_upimage_to_http (s : List Nat) : List Nat × List Nat × Except SErr Nat :=
  match readPacket s with
  | (Except.error e, left) => ([], left, Except.error (SErr.protocol e))
  | (Except.ok tp, s1) =>
    if tp.1 ≠ PACKET_ACK ∨ tp.2 = [] ∨ tp.2.getD 0 0 ≠ 0 then
      ([], s1, Except.error (SErr.nack (if tp.2 = [] then -1 else (tp.2.getD 0 0 : Int))))
    else readLoop s1 [] 0

/-- Encoding of a list of (type, payload) frames, as the sensor would put
them on the wire via `_write_packet`. -/
def encodeFrames (address : Nat) : List (Nat × List Nat) → List Nat
  | [] => []
  | fr :: rest => writePacket address fr.1 fr.2 ++ encodeFrames address rest

/-- Concatenation of the payloads of a list of frames, in order. -/
def payloadBytes : List (Nat × List Nat) → List Nat
  | [] => []
  | fr :: rest => fr.2 ++ payloadBytes rest

/-- Sum of the payload lengths of a list of frames. -/
def totalLen (frames : List (Nat × List Nat)) : Nat :=
  (frames.map fun fr => fr.2.length).sum

/-- `c in ('stop', 'quit', 'exit')` on an optional console line
(`read_cmd_nb` returns `None` when nothing is pending, which is never in
the stop set). -/
def stopLike (c : Option String) : Bool :=
  match c with
  | some c => c == "stop" || c == "quit" || c == "exit"
  | none => false

/-- `ensure_idle(f)`: poll `f.readImage()` (the probe results are
supplied as the list `probes`) until `QUIET_MS = 800` ms of continuous
absence has passed.  `start` is the tick at which the current absence
streak began (`None` outside a streak), `now` the current tick; an
absent poll sleeps 120 ms, a present poll resets the streak and sleeps
150 ms.  No command polling happens here.  Returns the unconsumed probe
results, or `none` when the supplied probe trace is exhausted before the
quiet interval is reached (the loop is still running at the horizon). -/
def ensureIdle : List Bool → Option Nat → Nat → Option (List Bool)
  | [], _, _ => none
  | p :: rest, start, now =>
    if p then ensureIdle rest none (now + 150)
    else
      let st := start.getD now
      if 800 ≤ now - st then some rest
      else ensureIdle rest (some st) (now + 120)

/-- Outcome of `wait_for_finger`: finger captured, aborted by a console
command, or still polling when the supplied probe trace ran out. -/
inductive WFR
  | ready
  | aborted (c : String)
  | stuck
  deriving DecidableEq

/-- The main polling loop of `wait_for_finger` (`while not
f.readImage()`): each cycle consumes one probe result; if the finger is
present return ready, otherwise sample one console command
(`poll_cmd()`), returning aborted when it is in the stop set.  Returns
the outcome together with the unconsumed command samples. -/
def fingerWait : List Bool → List (Option String) → WFR × List (Option String)
  | [], cmds => (WFR.stuck, cmds)
  | true :: _, cmds => (WFR.ready, cmds)
  | false :: ps, cmds =>
    match cmds with
    | [] => fingerWait ps []
    | c :: cs =>
      if stopLike c then (WFR.aborted (c.getD ""), cs)
      else fingerWait ps cs

/-- `wait_for_finger(f, poll_cmd)`: first `ensure_idle(f)` — which polls
only the probe, never the command channel — then the polling loop. -/
def wait_for_finger (probes : List Bool) (cmds : List (Option String)) :
    WFR × List (Option String) :=
  match ensureIdle probes none 0 with
  | none => (WFR.stuck, cmds)
  | some ps => fingerWait ps cmds

/-- Environment of one capture cycle of a mode loop: the probe results
and command samples consumed by `wait_for_finger`, whether
`http_post_start` succeeds, the bytes the sensor sends in reply to the
download command, and the `read_cmd_nb()` sample at the end of the
cycle. -/
structure Cycle where
  probes : List Bool
  fingerCmds : List (Option String)
  httpOk : Bool
  rx : List Nat
  cmdAfter : Option String

/-- Observable actions of a mode loop, in program order.
`writePacket` records the unread UART RX bytes pending at the moment the
download COMMAND frame is written. -/
inductive Event
  | flushUart
  | httpOpen (headers : List (String × String))
  | writePacket (pendingBefore : List Nat)
  | httpFinish
  | waitLift
  deriving DecidableEq

/-- Result of a mode loop: normal completion (detect mode, carrying the
final collected count), abort by console command, or the supplied
environment ran out while the loop was still going. -/
inductive ModeResult
  | completed (collected : Nat)
  | aborted (c : String)
  | stuck
  deriving DecidableEq

/-- The headers dict built per capture in `detect_mode`. -/
def detectHeaders (personId collected : Nat) : List (String × String) :=
  [("X-Format", "packed4"), ("X-Width", toString W), ("X-Height", toString H),
   ("X-Person-Id", toString personId), ("X-Mode", "detect"),
   ("X-Filename", toString personId ++ "_" ++ toString (collected + 1))]

/-- The headers dict built per capture in `cls_mode` (no X-Person-Id,
on purpose). -/
def clsHeaders (counter : Nat) : List (String × String) :=
  [("X-Format", "packed4"), ("X-Width", toString W), ("X-Height", toString H),
   ("X-Mode", "cls"), ("X-Filename", "test_img_" ++ toString counter)]

/-- The `while collected < SAMPLES_PER_PERSON` loop of `detect_mode`.
`pending` is the unread UART RX byte state at loop entry.  Each cycle:
`wait_for_finger` (abort returns the command), `flush_uart` (pending
becomes empty), open the HTTP request — if `http_post_start` raises, the
except branch runs `wait_for_lift`, `ensure_idle`, `flush_uart`, samples
the command channel and retries without touching `collected` — else
stream the image (the COMMAND write is recorded together with the
pending bytes at that moment), finish the request, `wait_for_lift`,
`ensure_idle`, `flush_uart`, increment `collected` only on success, and
sample the command channel.  Returns the event trace and the outcome. -/
def detectLoop (personId : Nat) : Nat → List Nat → List Cycle → List Event × ModeResult
  | collected, _pending, envs =>
    if SAMPLES_PER_PERSON ≤ collected then ([], ModeResult.completed collected)
    else
      match envs with
      | [] => ([], ModeResult.stuck)
      | cy :: rest =>
        match (wait_for_finger cy.probes cy.fingerCmds).1 with
        | WFR.stuck => ([], ModeResult.stuck)
        | WFR.aborted c => ([], ModeResult.aborted c)
        | WFR.ready =>
          if cy.httpOk then
            let pendingFlushed : List Nat := []
            let res := stream_upimage_to_http (pendingFlushed ++ cy.rx)
            let evs := [Event.flushUart, Event.httpOpen (detectHeaders personId collected),
                        Event.writePacket pendingFlushed, Event.httpFinish,
                        Event.waitLift, Event.flushUart]
            let collected' := match res.2.2 with
              | Except.ok _ => collected + 1
              | Except.error _ => collected
            if stopLike cy.cmdAfter then (evs, ModeResult.aborted (cy.cmdAfter.getD ""))
            else
              let next := detectLoop personId collected' [] rest
              (evs ++ next.1, next.2)
          else
            let evs := [Event.flushUart, Event.waitLift, Event.flushUart]
            if stopLike cy.cmdAfter then (evs, ModeResult.aborted (cy.cmdAfter.getD ""))
            else
              let next := detectLoop personId collected [] rest
              (evs ++ next.1, next.2)

/-- The `while True` loop of `cls_mode`.  `counter` models the global
`cls_counter`; it is incremented only on a successful upload.  Same
cycle structure as `detect_mode` but with the cls headers and no
success counter bound. -/
def clsLoop : Nat → List Nat → List Cycle → List Event × ModeResult
  | _counter, _pending, [] => ([], ModeResult.stuck)
  | counter, _pending, cy :: rest =>
      match (wait_for_finger cy.probes cy.fingerCmds).1 with
      | WFR.stuck => ([], ModeResult.stuck)
      | WFR.aborted c => ([], ModeResult.aborted c)
      | WFR.ready =>
        if cy.httpOk then
          let pendingFlushed : List Nat := []
          let res := stream_upimage_to_http (pendingFlushed ++ cy.rx)
          let evs := [Event.flushUart, Event.httpOpen (clsHeaders counter),
                      Event.writePacket pendingFlushed, Event.httpFinish,
                      Event.waitLift, Event.flushUart]
          let counter' := match res.2.2 with
            | Except.ok _ => counter + 1
            | Except.error _ => counter
          if stopLike cy.cmdAfter then (evs, ModeResult.aborted (cy.cmdAfter.getD ""))
          else
            let next := clsLoop counter' [] rest
            (evs ++ next.1, next.2)
        else
          let evs := [Event.flushUart, Event.waitLift, Event.flushUart]
          if stopLike cy.cmdAfter then (evs, ModeResult.aborted (cy.cmdAfter.getD ""))
          else
            let next := clsLoop counter [] rest
            (evs ++ next.1, next.2)

/-- A capture-cycle environment in which everything succeeds: the
finger arrives, `http_post_start` succeeds, the image transfer
completes, and no stop command is sampled afterwards. -/
def goodCycle (cy : Cycle) : Prop :=
  (wait_for_finger cy.probes cy.fingerCmds).1 = WFR.ready ∧
  cy.httpOk = true ∧
  (∃ n, (stream_upimage_to_http cy.rx).2.2 = Except.ok n) ∧
  stopLike cy.cmdAfter = false

/-! Helper lemmas about the codec. -/

theorem be16_val {n : Nat} (h : n < 65536) : (n >>> 8) % 256 * 256 + n % 256 = n := by
  rw [Nat.shiftRight_eq_div_pow]
  have h8 : (2 : Nat) ^ 8 = 256 := by norm_num
  rw [h8]
  omega

theorem readExact_append (a b : List Nat) : readExact (a ++ b) a.length = some (a, b) := by
  have hle : a.length ≤ (a ++ b).length := by simp
  rw [readExact, if_pos hle, List.take_left, List.drop_left]

theorem writePacket_decomp (address ptype : Nat) (payload : List Nat) :
    writePacket address ptype payload =
      (239 :: 1 :: (address >>> 24) % 256 :: (address >>> 16) % 256 :: (address >>> 8) % 256 ::
        address % 256 :: ptype :: ((payload.length + 2) >>> 8) % 256 ::
        (payload.length + 2) % 256 :: []) ++
      (payload ++
        be16 ((ptype + ((payload.length + 2) >>> 8) % 256 + (payload.length + 2) % 256 +
          payload.sum) % 65536)) := by
  simp [writePacket, be16, toBytes4, STARTCODE]

/-- One-step evaluation of `_read_packet` on a stream starting with a
well-formed 9-byte header. -/
theorem readPacket_header (b2 b3 b4 b5 t h8 l8 : Nat) (tail : List Nat) :
    readPacket ((239 :: 1 :: b2 :: b3 :: b4 :: b5 :: t :: h8 :: l8 :: []) ++ tail) =
      (match readExact tail (h8 * 256 + l8) with
       | none => (Except.error DErr.timeoutBody, [])
       | some (rest, s2) =>
         if rest.length = 0 then (Except.error DErr.timeoutBody, s2)
         else if rest.length < 2 then (Except.error DErr.indexError, s2)
         else
           let payload := rest.take (rest.length - 2)
           let rxcs := rest.getD (rest.length - 2) 0 * 256 + rest.getD (rest.length - 1) 0
           let calcCs := (t + h8 + l8 + payload.sum) % 65536
           if rxcs ≠ calcCs then (Except.error DErr.badChecksum, s2)
           else (Except.ok (t, payload), s2)) := by
  have h9 : readExact ((239 :: 1 :: b2 :: b3 :: b4 :: b5 :: t :: h8 :: l8 :: []) ++ tail) 9 =
      some (239 :: 1 :: b2 :: b3 :: b4 :: b5 :: t :: h8 :: l8 :: [], tail) := by
    simpa using readExact_append (239 :: 1 :: b2 :: b3 :: b4 :: b5 :: t :: h8 :: l8 :: []) tail
  rw [readPacket, h9]
  simp [STARTCODE, List.getD]

theorem getD_take_lt {k n : Nat} (h : k < n) (l : List Nat) (d : Nat) :
    (l.take n).getD k d = l.getD k d := by
  rw [List.getD_eq_getElem?_getD, List.getD_eq_getElem?_getD, List.getElem?_take_of_lt h]

theorem getD_append_right (p l : List Nat) (k d : Nat) :
    (p ++ l).getD (p.length + k) d = l.getD k d := by
  rw [List.getD_eq_getElem?_getD, List.getD_eq_getElem?_getD,
    List.getElem?_append_right (Nat.le_add_right _ _), Nat.add_sub_cancel_left]

/-- Round-trip of the codec: a frame produced by `_write_packet`, read
back from the front of a stream, decodes to the same type and payload
and consumes exactly the frame — provided the length field does not wrap
(payload at most 0xFFFF - 2 bytes). -/
theorem readPacket_writePacket (address ptype : Nat) (p s : List Nat)
    (hp : p.length ≤ 65533) :
    readPacket (writePacket address ptype p ++ s) = (Except.ok (ptype, p), s) := by
  rw [writePacket_decomp, List.append_assoc, readPacket_header]
  have hlt : p.length + 2 < 65536 := by omega
  rw [be16_val hlt]
  set cs := (ptype + ((p.length + 2) >>> 8) % 256 + (p.length + 2) % 256 + p.sum) % 65536 with hcs
  have hlen : (p ++ be16 cs).length = p.length + 2 := by simp [be16]
  have hre : readExact ((p ++ be16 cs) ++ s) (p.length + 2) = some (p ++ be16 cs, s) := by
    rw [← hlen]; exact readExact_append _ s
  rw [hre]
  simp only [hlen]
  rw [if_neg (by omega), if_neg (by omega)]
  have hpay : (p ++ be16 cs).take (p.length + 2 - 2) = p := by
    rw [Nat.add_sub_cancel, List.take_left]
  have hg1 : (p ++ be16 cs).getD (p.length + 2 - 2) 0 = (cs >>> 8) % 256 := by
    rw [Nat.add_sub_cancel, ← Nat.add_zero p.length, getD_append_right]; rfl
  have hg2 : (p ++ be16 cs).getD (p.length + 2 - 1) 0 = cs % 256 := by
    have h21 : p.length + 2 - 1 = p.length + 1 := by omega
    rw [h21, getD_append_right]; rfl
  rw [hpay, hg1, hg2]
  have hcslt : cs < 65536 := Nat.mod_lt _ (by norm_num)
  rw [be16_val hcslt]
  rw [if_neg (by rw [hcs]; omega)]

/-- Inversion: everything that must have held about the input stream
when `_read_packet` returned a (type, payload) result. -/
theorem readPacket_ok_inv {s : List Nat} {t : Nat} {p s2 : List Nat}
    (h : readPacket s = (Except.ok (t, p), s2)) :
    9 ≤ s.length ∧
    s.getD 0 0 = 239 ∧ s.getD 1 0 = 1 ∧ t = s.getD 6 0 ∧
    2 ≤ s.getD 7 0 * 256 + s.getD 8 0 ∧
    9 + (s.getD 7 0 * 256 + s.getD 8 0) ≤ s.length ∧
    p = (s.drop 9).take (s.getD 7 0 * 256 + s.getD 8 0 - 2) ∧
    s2 = s.drop (9 + (s.getD 7 0 * 256 + s.getD 8 0)) ∧
    (s.drop 9).getD (s.getD 7 0 * 256 + s.getD 8 0 - 2) 0 * 256 +
      (s.drop 9).getD (s.getD 7 0 * 256 + s.getD 8 0 - 1) 0
      = (t + s.getD 7 0 + s.getD 8 0 + p.sum) % 65536 := by
  rw [readPacket] at h
  by_cases h9 : 9 ≤ s.length
  case neg =>
    rw [readExact, if_neg h9] at h
    simp at h
  case pos =>
    rw [readExact, if_pos h9] at h
    simp only [] at h
    have g0 := getD_take_lt (show 0 < 9 by norm_num) s 0
    have g1 := getD_take_lt (show 1 < 9 by norm_num) s 0
    have g6 := getD_take_lt (show 6 < 9 by norm_num) s 0
    have g7 := getD_take_lt (show 7 < 9 by norm_num) s 0
    have g8 := getD_take_lt (show 8 < 9 by norm_num) s 0
    rw [g0, g1, g6, g7, g8] at h
    split at h
    case isTrue => simp at h
    case isFalse hmk =>
      push_neg at hmk
      by_cases hple : s.getD 7 0 * 256 + s.getD 8 0 ≤ (s.drop 9).length
      case neg =>
        rw [readExact, if_neg hple] at h
        simp at h
      case pos =>
        rw [readExact, if_pos hple] at h
        simp only [] at h
        have hlendrop : (s.drop 9).length = s.length - 9 := by simp
        have hple' : s.getD 7 0 * 256 + s.getD 8 0 ≤ s.length - 9 := by
          rw [← hlendrop]; exact hple
        have hrlen : ((s.drop 9).take (s.getD 7 0 * 256 + s.getD 8 0)).length =
            s.getD 7 0 * 256 + s.getD 8 0 := by
          rw [List.length_take]; exact Nat.min_eq_left hple
        rw [hrlen] at h
        split at h
        case isTrue => simp at h
        case isFalse hne0 =>
          split at h
          case isTrue => simp at h
          case isFalse hge2 =>
            split at h
            case isTrue => simp at h
            case isFalse hcs =>
              push_neg at hcs
              simp only [Prod.mk.injEq, Except.ok.injEq] at h
              obtain ⟨⟨ht, hp⟩, hs2⟩ := h
              have hplen2 : 2 ≤ s.getD 7 0 * 256 + s.getD 8 0 := by omega
              refine ⟨h9, hmk.1, hmk.2, ht.symm, hplen2, by omega, ?_, ?_, ?_⟩
              · rw [← hp, List.take_take, Nat.min_eq_left (by omega)]
              · rw [← hs2, List.drop_drop]
              · have ha : (s.drop 9).getD (s.getD 7 0 * 256 + s.getD 8 0 - 2) 0 =
                    ((s.drop 9).take (s.getD 7 0 * 256 + s.getD 8 0)).getD
                      (s.getD 7 0 * 256 + s.getD 8 0 - 2) 0 :=
                  (getD_take_lt (by omega) _ 0).symm
                have hb : (s.drop 9).getD (s.getD 7 0 * 256 + s.getD 8 0 - 1) 0 =
                    ((s.drop 9).take (s.getD 7 0 * 256 + s.getD 8 0)).getD
                      (s.getD 7 0 * 256 + s.getD 8 0 - 1) 0 :=
                  (getD_take_lt (by omega) _ 0).symm
                rw [ha, hb, ← ht, ← hp]
                exact hcs

/-- A successfully parsed frame consumes at least one byte of the
stream (in fact at least eleven). -/
theorem readPacket_ok_lt {s : List Nat} {tp : Nat × List Nat} {s2 : List Nat}
    (h : readPacket s = (Except.ok tp, s2)) : s2.length < s.length := by
  obtain ⟨t, p⟩ := tp
  obtain ⟨h9, -, -, -, -, hle, -, hs2, -⟩ := readPacket_ok_inv h
  subst hs2
  rw [List.length_drop]
  omega

/-- The fuel argument of `readLoopAux` is irrelevant as soon as it
exceeds the stream length. -/
theorem readLoopAux_irrel (f1 : Nat) : ∀ (f2 : Nat) (s sink : List Nat) (sent : Nat),
    s.length < f1 → s.length < f2 →
    readLoopAux f1 s sink sent = readLoopAux f2 s sink sent := by
  induction f1 with
  | zero => intro f2 s sink sent h1 h2; omega
  | succ a ih =>
    intro f2 s sink sent h1 h2
    cases f2 with
    | zero => omega
    | succ b =>
      rcases hrp : readPacket s with ⟨r, left⟩
      cases r with
      | error e => simp [readLoopAux, hrp]
      | ok tp =>
        simp only [readLoopAux, hrp]
        by_cases h28 : tp.1 ≠ PACKET_DATA ∧ tp.1 ≠ PACKET_DATA_END
        · simp [h28]
        · simp only [if_neg h28]
          by_cases hEnd : tp.1 = PACKET_DATA_END
          · simp [hEnd]
          · simp only [if_neg hEnd]
            have hlt : left.length < s.length := readPacket_ok_lt hrp
            exact ih b left (sink ++ tp.2) (sent + tp.2.length) (by omega) (by omega)

/-- Unfolding of the DATA loop when `_read_packet` raises. -/
theorem readLoop_err {s left : List Nat} {e : DErr} (sink : List Nat) (sent : Nat)
    (h : readPacket s = (Except.error e, left)) :
    readLoop s sink sent = (sink, left, Except.error (SErr.protocol e)) := by
  rw [readLoop]
  simp [readLoopAux, h]

/-- Unfolding of the DATA loop when `_read_packet` returns a frame. -/
theorem readLoop_ok {s : List Nat} {t : Nat} {p s2 : List Nat}
    (h : readPacket s = (Except.ok (t, p), s2)) (sink : List Nat) (sent : Nat) :
    readLoop s sink sent =
      if t ≠ PACKET_DATA ∧ t ≠ PACKET_DATA_END then
        (sink, s2, Except.error (SErr.unexpected t))
      else if t = PACKET_DATA_END then (sink ++ p, s2, Except.ok (sent + p.length))
      else readLoop s2 (sink ++ p) (sent + p.length) := by
  have hlt := readPacket_ok_lt h
  rw [readLoop]
  simp only [readLoopAux, h]
  by_cases h28 : t ≠ PACKET_DATA ∧ t ≠ PACKET_DATA_END
  · simp [h28]
  · simp only [if_neg h28]
    by_cases hEnd : t = PACKET_DATA_END
    · simp [hEnd]
    · simp only [if_neg hEnd]
      rw [readLoop]
      exact readLoopAux_irrel s.length (s2.length + 1) s2 (sink ++ p) (sent + p.length)
        hlt (Nat.lt_succ_self _)

/-- Unfolding of `stream_upimage_to_http` when the first reply frame
parses. -/
theorem stream_first_frame {s : List Nat} {t : Nat} {p s1 : List Nat}
    (h : readPacket s = (Except.ok (t, p), s1)) :
    stream_upimage_to_http s =
      if t ≠ PACKET_ACK ∨ p = [] ∨ p.getD 0 0 ≠ 0 then
        ([], s1, Except.error (SErr.nack (if p = [] then -1 else (p.getD 0 0 : Int))))
      else readLoop s1 [] 0 := by
  simp only [stream_upimage_to_http, h]

/-! Claim theorems. -/

/-- C3: a received frame is accepted by `_read_packet` only if its first
two bytes equal the start marker and its trailing 2-byte checksum equals
the low 16 bits of the sum of the type byte, the two length bytes, and
every payload byte (first conjunct block); moreover, on a marker
mismatch the decode fails with the `bad startcode` error and no
(type, payload) result is returned (second block).  Failure on checksum
mismatch is the contrapositive of the first block: an accepted frame
always has a matching checksum. -/
theorem C3_accept_requires_marker_and_checksum :
    (∀ (s : List Nat) (t : Nat) (p s2 : List Nat),
      readPacket s = (Except.ok (t, p), s2) →
      s.getD 0 0 = STARTCODE >>> 8 ∧ s.getD 1 0 = STARTCODE % 256 ∧
      (s.drop 9).getD (s.getD 7 0 * 256 + s.getD 8 0 - 2) 0 * 256 +
        (s.drop 9).getD (s.getD 7 0 * 256 + s.getD 8 0 - 1) 0
        = (t + s.getD 7 0 + s.getD 8 0 + p.sum) % 65536) ∧
    (∀ s : List Nat, 9 ≤ s.length →
      s.getD 0 0 ≠ STARTCODE >>> 8 ∨ s.getD 1 0 ≠ STARTCODE % 256 →
      (readPacket s).1 = Except.error DErr.badStartcode) := by
  constructor
  · intro s t p s2 h
    obtain ⟨-, h0, h1, -, -, -, -, -, hcs⟩ := readPacket_ok_inv h
    exact ⟨by rw [h0]; rfl, by rw [h1]; rfl, hcs⟩
  · intro s h9 hmk
    rw [readPacket, readExact, if_pos h9]
    simp only []
    rw [if_pos]
    · rw [getD_take_lt (by norm_num), getD_take_lt (by norm_num)]
      exact hmk

/-- C3 witness: a concrete accepted frame satisfies the marker and
checksum conditions, and a concrete marker-mismatched stream is
rejected. -/
theorem C3_witness :
    ((writePacket 0 PACKET_ACK [0]).getD 0 0 = STARTCODE >>> 8 ∧
      (writePacket 0 PACKET_ACK [0]).getD 1 0 = STARTCODE % 256 ∧
      ((writePacket 0 PACKET_ACK [0]).drop 9).getD
          ((writePacket 0 PACKET_ACK [0]).getD 7 0 * 256 +
            (writePacket 0 PACKET_ACK [0]).getD 8 0 - 2) 0 * 256 +
        ((writePacket 0 PACKET_ACK [0]).drop 9).getD
          ((writePacket 0 PACKET_ACK [0]).getD 7 0 * 256 +
            (writePacket 0 PACKET_ACK [0]).getD 8 0 - 1) 0
        = (PACKET_ACK + (writePacket 0 PACKET_ACK [0]).getD 7 0 +
            (writePacket 0 PACKET_ACK [0]).getD 8 0 + ([0] : List Nat).sum) % 65536) ∧
    (readPacket [0, 0, 0, 0, 0, 0, 0, 0, 0]).1 = Except.error DErr.badStartcode :=
  ⟨C3_accept_requires_marker_and_checksum.1 (writePacket 0 PACKET_ACK [0]) PACKET_ACK [0] []
      (by rfl),
    C3_accept_requires_marker_and_checksum.2 [0, 0, 0, 0, 0, 0, 0, 0, 0]
      (by norm_num) (Or.inl (by decide))⟩

/-- C9: the frame decoder is not total over syntactically well-formed
headers.  With a matching marker and a declared length field of 0,
`_read_packet` raises the body-timeout error even though every declared
byte was read (the empty body is falsy in Python); with a declared
length of 1 it raises an out-of-range `IndexError` at `rest[-2]`, not a
protocol error; and a (type, payload) result is only ever returned when
the declared length is at least 2. -/
theorem C9_decoder_not_total :
    (∀ (b2 b3 b4 b5 t : Nat) (tail : List Nat),
      readPacket ((239 :: 1 :: b2 :: b3 :: b4 :: b5 :: t :: 0 :: 0 :: []) ++ tail) =
        (Except.error DErr.timeoutBody, tail)) ∧
    (∀ (b2 b3 b4 b5 t c : Nat) (tail : List Nat),
      readPacket ((239 :: 1 :: b2 :: b3 :: b4 :: b5 :: t :: 0 :: 1 :: []) ++ (c :: tail)) =
        (Except.error DErr.indexError, tail)) ∧
    (∀ (s : List Nat) (t : Nat) (p s2 : List Nat),
      readPacket s = (Except.ok (t, p), s2) → 2 ≤ s.getD 7 0 * 256 + s.getD 8 0) := by
  refine ⟨?_, ?_, ?_⟩
  · intro b2 b3 b4 b5 t tail
    rw [readPacket_header]
    have h0 : readExact tail (0 * 256 + 0) = some ([], tail) := by
      rw [readExact, if_pos (Nat.zero_le _)]
      simp
    rw [h0]
    simp
  · intro b2 b3 b4 b5 t c tail
    rw [readPacket_header]
    have h1 : readExact (c :: tail) (0 * 256 + 1) = some ([c], tail) := by
      simpa using readExact_append [c] tail
    rw [h1]
    simp
  · intro s t p s2 h
    exact (readPacket_ok_inv h).2.2.2.2.1

/-- C9 witness: the three parts at concrete streams. -/
theorem C9_witness :
    readPacket ((239 :: 1 :: 0 :: 0 :: 0 :: 0 :: 7 :: 0 :: 0 :: []) ++ [5]) =
        (Except.error DErr.timeoutBody, [5]) ∧
    readPacket ((239 :: 1 :: 0 :: 0 :: 0 :: 0 :: 7 :: 0 :: 1 :: []) ++ (4 :: [6])) =
        (Except.error DErr.indexError, [6]) ∧
    2 ≤ (writePacket 0 PACKET_ACK [0]).getD 7 0 * 256 + (writePacket 0 PACKET_ACK [0]).getD 8 0 :=
  ⟨C9_decoder_not_total.1 0 0 0 0 7 [5],
    C9_decoder_not_total.2.1 0 0 0 0 7 4 [6],
    C9_decoder_not_total.2.2 (writePacket 0 PACKET_ACK [0]) PACKET_ACK [0] [] (by rfl)⟩

/-- C4 (amended): encode/decode round-trip of the packet codec, for
byte-valued packet types, addresses below 2^32 (`address.to_bytes(4)`
raises otherwise) and payloads of at most 65533 bytes, so that the
16-bit length field `len(payload) + 2` does not wrap. -/
theorem C4_roundtrip (address ptype : Nat) (p : List Nat)
    (haddr : address < 4294967296) (ht : ptype < 256) (hp : p.length ≤ 65533) :
    readPacket (writePacket address ptype p) = (Except.ok (ptype, p), []) := by
  have h := readPacket_writePacket address ptype p [] hp
  simpa using h

/-- C4 witness: round-trip at a concrete frame. -/
theorem C4_roundtrip_witness :
    readPacket (writePacket 4294967295 PACKET_DATA [17, 34]) =
      (Except.ok (PACKET_DATA, [17, 34]), []) :=
  C4_roundtrip 4294967295 PACKET_DATA [17, 34] (by decide) (by decide) (by decide)

/-- For any payload of exactly 65534 bytes the 16-bit length field
`len(payload) + 2` wraps to 0 and decoding the encoded frame fails with
the body-timeout error. -/
theorem writePacket_len_wrap (address t : Nat) (p : List Nat) (hp : p.length = 65534) :
    readPacket (writePacket address t p) =
      (Except.error DErr.timeoutBody, p ++ be16 ((t + 0 + 0 + p.sum) % 65536)) := by
  have hdec := writePacket_decomp address t p
  rw [hp] at hdec
  have e1 : ((65534 + 2) >>> 8) % 256 = 0 := by decide
  have e2 : (65534 + 2) % 256 = 0 := by decide
  rw [e1, e2] at hdec
  rw [hdec, readPacket_header]
  have h0 : readExact (p ++ be16 ((t + 0 + 0 + p.sum) % 65536)) (0 * 256 + 0) =
      some ([], p ++ be16 ((t + 0 + 0 + p.sum) % 65536)) := by
    rw [readExact, if_pos (Nat.zero_le _)]
    rfl
  rw [h0]
  simp

/-- C4 counterexample: for a payload of 65534 bytes, decoding the
encoded frame does not return the original (type, payload) pair — the
length field wraps and the decode raises the body-timeout error — so
the round-trip claim is false for unrestricted payloads. -/
theorem C4_counterexample :
    readPacket (writePacket 4294967295 1 (List.replicate 65534 0)) ≠
      (Except.ok (1, List.replicate 65534 0), []) := by
  intro hcontra
  rw [writePacket_len_wrap 4294967295 1 (List.replicate 65534 0)
    (List.length_replicate 65534 0)] at hcontra
  exact Except.noConfusion (congrArg Prod.fst hcontra)

/-- The DATA loop over an encoded frame sequence (all DATA frames, a
final DATA_END) forwards exactly the concatenated payloads and counts
their lengths, leaving the trailing junk unread. -/
theorem readLoop_frames (address : Nat) :
    ∀ (frames : List (Nat × List Nat)) (junk sink : List Nat) (sent : Nat),
      frames ≠ [] →
      (∀ fr ∈ frames.dropLast, fr.1 = PACKET_DATA) →
      (∀ fr ∈ frames, fr.2.length ≤ 65533) →
      frames.getLast?.map Prod.fst = some PACKET_DATA_END →
      readLoop (encodeFrames address frames ++ junk) sink sent =
        (sink ++ payloadBytes frames, junk, Except.ok (sent + totalLen frames)) := by
  intro frames
  induction frames with
  | nil => intro junk sink sent hne _ _ _; exact absurd rfl hne
  | cons fr rest ih =>
    intro junk sink sent _hne hdata hlen hlast
    obtain ⟨t, p⟩ := fr
    cases rest with
    | nil =>
      have ht8 : t = PACKET_DATA_END := by simpa using hlast
      have hpl : p.length ≤ 65533 := by simpa using hlen (t, p) (by simp)
      have henc : encodeFrames address [(t, p)] ++ junk = writePacket address t p ++ junk := by
        simp [encodeFrames]
      rw [henc, readLoop_ok (readPacket_writePacket address t p junk hpl), ht8]
      rw [if_neg (by simp), if_pos rfl]
      simp [payloadBytes, totalLen]
    | cons fr2 rest2 =>
      have ht2 : t = PACKET_DATA := by
        simpa using hdata (t, p) (by rw [List.dropLast_cons₂]; exact List.mem_cons_self _ _)
      have hpl : p.length ≤ 65533 := by simpa using hlen (t, p) (by simp)
      have henc : encodeFrames address ((t, p) :: fr2 :: rest2) ++ junk =
          writePacket address t p ++ (encodeFrames address (fr2 :: rest2) ++ junk) := by
        simp [encodeFrames]
      rw [henc, readLoop_ok (readPacket_writePacket address t p _ hpl), ht2]
      rw [if_neg (by simp [PACKET_DATA, PACKET_DATA_END]),
        if_neg (by simp [PACKET_DATA, PACKET_DATA_END])]
      rw [List.getLast?_cons_cons] at hlast
      rw [ih junk (sink ++ p) (sent + p.length) (by simp)
        (fun fr hm => hdata fr (by rw [List.dropLast_cons₂]; exact List.mem_cons_of_mem _ hm))
        (fun fr hm => hlen fr (List.mem_cons_of_mem _ hm)) hlast]
      simp [payloadBytes, totalLen, Nat.add_assoc]

/-- C2: streaming a reply of N frames of type DATA or DATA_END (only
the last being DATA_END) with payload lengths L1..Ln forwards to the
sink exactly the concatenation of the N payloads in arrival order,
stops right after the DATA_END frame (the junk after it stays unread),
and reports byte count L1+...+Ln; a frame of any other type aborts the
loop with the unexpected-packet error and forwards nothing. -/
theorem C2_data_loop_streams_payloads :
    (∀ (address : Nat) (frames : List (Nat × List Nat)) (junk sink : List Nat) (sent : Nat),
      frames ≠ [] →
      (∀ fr ∈ frames.dropLast, fr.1 = PACKET_DATA) →
      (∀ fr ∈ frames, fr.2.length ≤ 65533) →
      frames.getLast?.map Prod.fst = some PACKET_DATA_END →
      readLoop (encodeFrames address frames ++ junk) sink sent =
        (sink ++ payloadBytes frames, junk, Except.ok (sent + totalLen frames))) ∧
    (∀ (address t : Nat) (p s sink : List Nat) (sent : Nat),
      t ≠ PACKET_DATA → t ≠ PACKET_DATA_END → p.length ≤ 65533 →
      readLoop (writePacket address t p ++ s) sink sent =
        (sink, s, Except.error (SErr.unexpected t))) := by
  constructor
  · exact readLoop_frames
  · intro address t p s sink sent h2 h8 hpl
    rw [readLoop_ok (readPacket_writePacket address t p s hpl), if_pos ⟨h2, h8⟩]

/-- C2 witness: a concrete DATA, DATA_END sequence and a concrete
unexpected-type frame. -/
theorem C2_witness :
    readLoop (encodeFrames 4294967295 [(PACKET_DATA, [10, 20]), (PACKET_DATA_END, [30])] ++ [9])
        [] 0 = ([10, 20, 30], [9], Except.ok 3) ∧
    readLoop (writePacket 4294967295 PACKET_ACK [0] ++ [9]) [] 0 =
      ([], [9], Except.error (SErr.unexpected PACKET_ACK)) := by
  constructor
  · have h := C2_data_loop_streams_payloads.1 4294967295
      [(PACKET_DATA, [10, 20]), (PACKET_DATA_END, [30])] [9] [] 0
      (by simp) (by decide) (by decide) (by decide)
    simpa [payloadBytes, totalLen] using h
  · exact C2_data_loop_streams_payloads.2 4294967295 PACKET_ACK [0] [9] [] 0
      (by decide) (by decide) (by decide)

/-- C5 (amended): after the download COMMAND, streaming proceeds only
when the first reply frame is an ACK with a nonempty payload whose
byte 0 is the success code 0x00.  In every other case — ACK with a
nonzero status byte, ACK with an empty payload, or a reply frame of any
other type — the call fails with the device-NACK error carrying
`payload[0]` (or -1 for an empty payload) and forwards zero bytes to
the sink.  (The source does not raise a distinct unexpected-type error
for a non-ACK first reply; see the counterexample.) -/
theorem C5_first_reply (s : List Nat) (t : Nat) (p s1 : List Nat)
    (h : readPacket s = (Except.ok (t, p), s1)) :
    (t = PACKET_ACK → p ≠ [] → p.getD 0 0 = 0 →
      stream_upimage_to_http s = readLoop s1 [] 0) ∧
    (t ≠ PACKET_ACK ∨ p = [] ∨ p.getD 0 0 ≠ 0 →
      stream_upimage_to_http s =
        ([], s1, Except.error (SErr.nack (if p = [] then -1 else (p.getD 0 0 : Int))))) := by
  constructor
  · intro ht hp hg
    rw [stream_first_frame h, if_neg (by push_neg; exact ⟨ht, hp, hg⟩)]
  · intro hor
    rw [stream_first_frame h, if_pos hor]

/-- C5 counterexample: a first reply frame of type DATA (payload `[0]`)
makes `stream_upimage_to_http` fail with the device-NACK error
(`UpImage NACK code=00`), not with an unexpected-type error distinct
from it — refuting the claim that a non-ACK reply type produces a
distinct unexpected-type failure. -/
theorem C5_counterexample :
    stream_upimage_to_http (writePacket 4294967295 PACKET_DATA [0]) =
      ([], [], Except.error (SErr.nack 0)) ∧
    SErr.nack 0 ≠ SErr.unexpected PACKET_DATA := by
  constructor
  · have h : readPacket (writePacket 4294967295 PACKET_DATA [0]) =
        (Except.ok (PACKET_DATA, [0]), []) := by rfl
    rw [stream_first_frame h, if_pos (Or.inl (by decide))]
    simp
  · decide

/-- C5 witness: both branches of the amended theorem at concrete
frames. -/
theorem C5_witness :
    stream_upimage_to_http (writePacket 0 PACKET_ACK [0] ++ writePacket 0 PACKET_DATA_END [5]) =
      readLoop (writePacket 0 PACKET_DATA_END [5]) [] 0 ∧
    stream_upimage_to_http (writePacket 0 PACKET_ACK [3]) =
      ([], [], Except.error (SErr.nack 3)) := by
  constructor
  · exact (C5_first_reply _ PACKET_ACK [0] _
      (readPacket_writePacket 0 PACKET_ACK [0] _ (by decide))).1 rfl (by simp) rfl
  · have h := (C5_first_reply (writePacket 0 PACKET_ACK [3]) PACKET_ACK [3] [] (by rfl)).2
      (Or.inr (Or.inr (by decide)))
    simpa using h

/-- C10: when the first reply to the download command is an ACK frame
with an empty payload, `stream_upimage_to_http` raises the device-NACK
error with code -1 (the Python `payload[0] if payload else -1` guard
avoids indexing the empty payload) and forwards zero bytes to the
sink. -/
theorem C10_empty_ack_payload (s s1 : List Nat)
    (h : readPacket s = (Except.ok (PACKET_ACK, []), s1)) :
    stream_upimage_to_http s = ([], s1, Except.error (SErr.nack (-1))) := by
  rw [stream_first_frame h, if_pos (Or.inr (Or.inl rfl))]
  simp

/-- C10 witness: a concrete empty-payload ACK reply. -/
theorem C10_witness :
    stream_upimage_to_http (writePacket 0 PACKET_ACK []) =
      ([], [], Except.error (SErr.nack (-1))) :=
  C10_empty_ack_payload (writePacket 0 PACKET_ACK []) [] (by rfl)

theorem detect_write_after_flush (envs : List Cycle) :
    ∀ (personId collected : Nat) (pending : List Nat) (ev : Event),
      ev ∈ (detectLoop personId collected pending envs).1 →
      ∀ b, ev = Event.writePacket b → b = [] := by
  induction envs with
  | nil =>
    intro personId collected pending ev hmem b hev
    rw [detectLoop] at hmem
    split at hmem <;> simp_all
  | cons cy rest ih =>
    intro personId collected pending ev hmem b hev
    subst hev
    rw [detectLoop] at hmem
    split at hmem
    case isTrue => simp at hmem
    case isFalse =>
      split at hmem
      case h_1 => simp at hmem
      case h_2 => simp at hmem
      case h_3 =>
        split at hmem
        case isTrue =>
          split at hmem
          case isTrue => simp_all
          case isFalse =>
            simp only [List.mem_append] at hmem
            rcases hmem with hm | hm
            · simpa using hm
            · exact ih _ _ _ _ hm b rfl
        case isFalse =>
          split at hmem
          case isTrue => simp_all
          case isFalse =>
            simp only [List.mem_append] at hmem
            rcases hmem with hm | hm
            · simp at hm
            · exact ih _ _ _ _ hm b rfl

theorem cls_write_after_flush (envs : List Cycle) :
    ∀ (counter : Nat) (pending : List Nat) (ev : Event),
      ev ∈ (clsLoop counter pending envs).1 →
      ∀ b, ev = Event.writePacket b → b = [] := by
  induction envs with
  | nil =>
    intro counter pending ev hmem b hev
    simp only [clsLoop] at hmem
    simp at hmem
  | cons cy rest ih =>
    intro counter pending ev hmem b hev
    subst hev
    simp only [clsLoop] at hmem
    split at hmem
    case h_1 => simp at hmem
    case h_2 => simp at hmem
    case h_3 =>
      split at hmem
      case isTrue =>
        split at hmem
        case isTrue => simp_all
        case isFalse =>
          simp only [List.mem_append] at hmem
          rcases hmem with hm | hm
          · simpa using hm
          · exact ih _ _ _ hm b rfl
      case isFalse =>
        split at hmem
        case isTrue => simp_all
        case isFalse =>
          simp only [List.mem_append] at hmem
          rcases hmem with hm | hm
          · simp at hm
          · exact ih _ _ _ hm b rfl

/-- C1: in both mode loops, every download-COMMAND `_write_packet` is
issued with no residual unread bytes pending on the UART: the
`flush_uart` preceding each transfer (and the one in each failure path)
guarantees the pending-byte state recorded at every write event is
empty. -/
theorem C1_flush_before_command_write :
    (∀ (personId collected : Nat) (pending : List Nat) (envs : List Cycle) (ev : Event),
      ev ∈ (detectLoop personId collected pending envs).1 →
      ∀ b, ev = Event.writePacket b → b = []) ∧
    (∀ (counter : Nat) (pending : List Nat) (envs : List Cycle) (ev : Event),
      ev ∈ (clsLoop counter pending envs).1 →
      ∀ b, ev = Event.writePacket b → b = []) :=
  ⟨fun personId collected pending envs =>
      detect_write_after_flush envs personId collected pending,
    fun counter pending envs => cls_write_after_flush envs counter pending⟩

/-- C1 witness: concrete cycles of both modes that do reach the command
write, applied to the theorem. -/
theorem C1_witness :
    (Event.writePacket [] ∈
      (detectLoop 1 0 [7] [⟨List.replicate 8 false ++ [true], [], true, [], none⟩]).1 ∧
      ([] : List Nat) = []) ∧
    (Event.writePacket [] ∈
      (clsLoop 1 [7] [⟨List.replicate 8 false ++ [true], [], true, [], none⟩]).1 ∧
      ([] : List Nat) = []) :=
  ⟨⟨by decide,
    C1_flush_before_command_write.1 1 0 [7]
      [⟨List.replicate 8 false ++ [true], [], true, [], none⟩]
      (Event.writePacket []) (by decide) [] rfl⟩,
   ⟨by decide,
    C1_flush_before_command_write.2 1 [7]
      [⟨List.replicate 8 false ++ [true], [], true, [], none⟩]
      (Event.writePacket []) (by decide) [] rfl⟩⟩

theorem detect_personId_header (envs : List Cycle) :
    ∀ (personId collected : Nat) (pending : List Nat) (hs : List (String × String)),
      Event.httpOpen hs ∈ (detectLoop personId collected pending envs).1 →
      ("X-Person-Id", toString personId) ∈ hs := by
  induction envs with
  | nil =>
    intro personId collected pending hs hmem
    rw [detectLoop] at hmem
    split at hmem <;> simp_all
  | cons cy rest ih =>
    intro personId collected pending hs hmem
    rw [detectLoop] at hmem
    split at hmem
    case isTrue => simp at hmem
    case isFalse =>
      split at hmem
      case h_1 => simp at hmem
      case h_2 => simp at hmem
      case h_3 =>
        split at hmem
        case isTrue =>
          split at hmem
          case isTrue =>
            simp at hmem
            subst hmem
            simp [detectHeaders]
          case isFalse =>
            simp only [List.mem_append] at hmem
            rcases hmem with hm | hm
            · simp at hm
              subst hm
              simp [detectHeaders]
            · exact ih _ _ _ _ hm
        case isFalse =>
          split at hmem
          case isTrue => simp at hmem
          case isFalse =>
            simp only [List.mem_append] at hmem
            rcases hmem with hm | hm
            · simp at hm
            · exact ih _ _ _ _ hm

theorem cls_no_personId_header (envs : List Cycle) :
    ∀ (counter : Nat) (pending : List Nat) (hs : List (String × String)),
      Event.httpOpen hs ∈ (clsLoop counter pending envs).1 →
      ∀ kv ∈ hs, kv.1 ≠ "X-Person-Id" := by
  induction envs with
  | nil =>
    intro counter pending hs hmem
    simp only [clsLoop] at hmem
    simp at hmem
  | cons cy rest ih =>
    intro counter pending hs hmem
    simp only [clsLoop] at hmem
    split at hmem
    case h_1 => simp at hmem
    case h_2 => simp at hmem
    case h_3 =>
      split at hmem
      case isTrue =>
        split at hmem
        case isTrue =>
          simp at hmem
          subst hmem
          intro kv hkv
          simp [clsHeaders] at hkv
          rcases hkv with rfl | rfl | rfl | rfl | rfl <;> simp
        case isFalse =>
          simp only [List.mem_append] at hmem
          rcases hmem with hm | hm
          · simp at hm
            subst hm
            intro kv hkv
            simp [clsHeaders] at hkv
            rcases hkv with rfl | rfl | rfl | rfl | rfl <;> simp
          · exact ih _ _ _ hm
      case isFalse =>
        split at hmem
        case isTrue => simp at hmem
        case isFalse =>
          simp only [List.mem_append] at hmem
          rcases hmem with hm | hm
          · simp at hm
          · exact ih _ _ _ hm

/-- C7: every HTTP request opened in detect mode carries the
X-Person-Id header with the session's subject id, and no HTTP request
opened in classification mode carries an X-Person-Id header. -/
theorem C7_person_id_header :
    (∀ (personId collected : Nat) (pending : List Nat) (envs : List Cycle)
        (hs : List (String × String)),
      Event.httpOpen hs ∈ (detectLoop personId collected pending envs).1 →
      ("X-Person-Id", toString personId) ∈ hs) ∧
    (∀ (counter : Nat) (pending : List Nat) (envs : List Cycle)
        (hs : List (String × String)),
      Event.httpOpen hs ∈ (clsLoop counter pending envs).1 →
      ∀ kv ∈ hs, kv.1 ≠ "X-Person-Id") :=
  ⟨fun personId collected pending envs =>
      detect_personId_header envs personId collected pending,
    fun counter pending envs => cls_no_personId_header envs counter pending⟩

theorem detectLoop_pending (personId collected : Nat) (p q : List Nat) (envs : List Cycle) :
    detectLoop personId collected p envs = detectLoop personId collected q envs := by
  cases envs <;> rfl

/-- One fully successful detect cycle: the counter advances by one and
the loop continues on the remaining cycles with a flushed UART. -/
theorem detectLoop_success_step (personId collected : Nat) (pending : List Nat)
    (cy : Cycle) (rest : List Cycle) (n : Nat)
    (hc : collected < SAMPLES_PER_PERSON)
    (hready : (wait_for_finger cy.probes cy.fingerCmds).1 = WFR.ready)
    (hhttp : cy.httpOk = true)
    (hok : (stream_upimage_to_http cy.rx).2.2 = Except.ok n)
    (hcmd : stopLike cy.cmdAfter = false) :
    detectLoop personId collected pending (cy :: rest) =
      ([Event.flushUart, Event.httpOpen (detectHeaders personId collected),
        Event.writePacket [], Event.httpFinish, Event.waitLift, Event.flushUart] ++
        (detectLoop personId (collected + 1) [] rest).1,
       (detectLoop personId (collected + 1) [] rest).2) := by
  rw [detectLoop, if_neg (Nat.not_le.mpr hc)]
  simp only [hready, hhttp, List.nil_append, hok, hcmd]
  simp

/-- One failed detect cycle (transfer error after a successful HTTP
open): the counter does not advance and the loop retries the same slot
on the remaining cycles, with a flushed UART. -/
theorem detectLoop_failure_step (personId collected : Nat) (pending : List Nat)
    (cy : Cycle) (rest : List Cycle) (e : SErr)
    (hc : collected < SAMPLES_PER_PERSON)
    (hready : (wait_for_finger cy.probes cy.fingerCmds).1 = WFR.ready)
    (hhttp : cy.httpOk = true)
    (herr : (stream_upimage_to_http cy.rx).2.2 = Except.error e)
    (hcmd : stopLike cy.cmdAfter = false) :
    detectLoop personId collected pending (cy :: rest) =
      ([Event.flushUart, Event.httpOpen (detectHeaders personId collected),
        Event.writePacket [], Event.httpFinish, Event.waitLift, Event.flushUart] ++
        (detectLoop personId collected [] rest).1,
       (detectLoop personId collected [] rest).2) := by
  rw [detectLoop, if_neg (Nat.not_le.mpr hc)]
  simp only [hready, hhttp, List.nil_append, herr, hcmd]
  simp

/-- K consecutive fully successful detect cycles advance the counter by
exactly K. -/
theorem detectLoop_k_successes (personId : Nat) :
    ∀ (envs rest : List Cycle) (collected : Nat) (pending : List Nat),
      (∀ cy ∈ envs, goodCycle cy) →
      collected + envs.length < SAMPLES_PER_PERSON →
      ∃ es, detectLoop personId collected pending (envs ++ rest) =
        (es ++ (detectLoop personId (collected + envs.length) [] rest).1,
         (detectLoop personId (collected + envs.length) [] rest).2) := by
  intro envs
  induction envs with
  | nil =>
    intro rest collected pending _ _
    refine ⟨[], ?_⟩
    rw [detectLoop_pending personId collected pending []]
    simp
  | cons cy envs' ih =>
    intro rest collected pending hgood hlt
    obtain ⟨hready, hhttp, ⟨n, hok⟩, hcmd⟩ := hgood cy (by simp)
    have hc : collected < SAMPLES_PER_PERSON := by
      simp only [List.length_cons] at hlt
      omega
    rw [List.cons_append,
      detectLoop_success_step personId collected pending cy (envs' ++ rest) n hc
        hready hhttp hok hcmd]
    obtain ⟨es', hes'⟩ := ih rest (collected + 1) []
      (fun c hm => hgood c (List.mem_cons_of_mem _ hm))
      (by simp only [List.length_cons] at hlt ⊢; omega)
    rw [hes']
    refine ⟨[Event.flushUart, Event.httpOpen (detectHeaders personId collected),
      Event.writePacket [], Event.httpFinish, Event.waitLift, Event.flushUart] ++ es', ?_⟩
    have harith : collected + 1 + envs'.length = collected + (envs'.length + 1) := by omega
    simp [harith, List.append_assoc]

/-- With the target already reached, the detect loop exits normally at
once. -/
theorem detectLoop_completed (personId : Nat) (pending : List Nat) (envs : List Cycle) :
    detectLoop personId SAMPLES_PER_PERSON pending envs =
      ([], ModeResult.completed SAMPLES_PER_PERSON) := by
  cases envs <;> rw [detectLoop, if_pos (Nat.le_refl _)]

/-- The detect loop exits normally only with exactly
`SAMPLES_PER_PERSON` collected samples (starting from any count not
above the target). -/
theorem detectLoop_completed_inv :
    ∀ (envs : List Cycle) (personId collected : Nat) (pending : List Nat) (k : Nat),
      collected ≤ SAMPLES_PER_PERSON →
      (detectLoop personId collected pending envs).2 = ModeResult.completed k →
      k = SAMPLES_PER_PERSON := by
  intro envs
  induction envs with
  | nil =>
    intro personId collected pending k hle hres
    rw [detectLoop] at hres
    split at hres
    case isTrue h => simp at hres; omega
    case isFalse h => simp at hres
  | cons cy rest ih =>
    intro personId collected pending k hle hres
    rw [detectLoop] at hres
    split at hres
    case isTrue h => simp at hres; omega
    case isFalse h =>
      split at hres
      case h_1 => simp at hres
      case h_2 => simp at hres
      case h_3 =>
        have hc3 : collected < SAMPLES_PER_PERSON := Nat.lt_of_not_le h
        split at hres
        case isTrue =>
          split at hres
          case isTrue => simp at hres
          case isFalse =>
            simp only [] at hres
            refine ih personId _ [] k ?_ hres
            cases hstream : (stream_upimage_to_http ([] ++ cy.rx)).2.2 with
            | ok m => simp only [hstream]; exact hc3
            | error er => simp only [hstream]; exact hle
        case isFalse =>
          split at hres
          case isTrue => simp at hres
          case isFalse =>
            exact ih personId collected [] k hle hres

/-- C6: in detect mode the collected counter is incremented exactly
once per fully successful capture cycle (first conjunct) — so after K
consecutive successful cycles with K < target the loop state is
`collected = K` (second conjunct) — and never on a failed cycle, whose
retry reuses the same collected value (third conjunct); the filename
header of each request is derived from the subject id and
`collected + 1`, so a retried slot reuses the same sample index (fourth
conjunct); the loop exits normally exactly when collected reaches
`SAMPLES_PER_PERSON` (fifth and sixth conjuncts). -/
theorem C6_collected_counter :
    (∀ (personId collected : Nat) (pending : List Nat) (cy : Cycle)
        (rest : List Cycle) (n : Nat),
      collected < SAMPLES_PER_PERSON →
      (wait_for_finger cy.probes cy.fingerCmds).1 = WFR.ready →
      cy.httpOk = true →
      (stream_upimage_to_http cy.rx).2.2 = Except.ok n →
      stopLike cy.cmdAfter = false →
      detectLoop personId collected pending (cy :: rest) =
        ([Event.flushUart, Event.httpOpen (detectHeaders personId collected),
          Event.writePacket [], Event.httpFinish, Event.waitLift, Event.flushUart] ++
          (detectLoop personId (collected + 1) [] rest).1,
         (detectLoop personId (collected + 1) [] rest).2)) ∧
    (∀ (personId : Nat) (envs rest : List Cycle) (pending : List Nat),
      (∀ cy ∈ envs, goodCycle cy) →
      envs.length < SAMPLES_PER_PERSON →
      ∃ es, detectLoop personId 0 pending (envs ++ rest) =
        (es ++ (detectLoop personId envs.length [] rest).1,
         (detectLoop personId envs.length [] rest).2)) ∧
    (∀ (personId collected : Nat) (pending : List Nat) (cy : Cycle)
        (rest : List Cycle) (e : SErr),
      collected < SAMPLES_PER_PERSON →
      (wait_for_finger cy.probes cy.fingerCmds).1 = WFR.ready →
      cy.httpOk = true →
      (stream_upimage_to_http cy.rx).2.2 = Except.error e →
      stopLike cy.cmdAfter = false →
      detectLoop personId collected pending (cy :: rest) =
        ([Event.flushUart, Event.httpOpen (detectHeaders personId collected),
          Event.writePacket [], Event.httpFinish, Event.waitLift, Event.flushUart] ++
          (detectLoop personId collected [] rest).1,
         (detectLoop personId collected [] rest).2)) ∧
    (∀ personId collected : Nat,
      ("X-Filename", toString personId ++ "_" ++ toString (collected + 1)) ∈
        detectHeaders personId collected) ∧
    (∀ (personId : Nat) (pending : List Nat) (envs : List Cycle),
      detectLoop personId SAMPLES_PER_PERSON pending envs =
        ([], ModeResult.completed SAMPLES_PER_PERSON)) ∧
    (∀ (envs : List Cycle) (personId collected : Nat) (pending : List Nat) (k : Nat),
      collected ≤ SAMPLES_PER_PERSON →
      (detectLoop personId collected pending envs).2 = ModeResult.completed k →
      k = SAMPLES_PER_PERSON) := by
  refine ⟨detectLoop_success_step, ?_, detectLoop_failure_step, ?_, detectLoop_completed,
    detectLoop_completed_inv⟩
  · intro personId envs rest pending hgood hlt
    have h := detectLoop_k_successes personId envs rest 0 pending hgood (by simpa using hlt)
    simpa using h
  · intro personId collected
    simp [detectHeaders]

/-- C6 witness: the six conjuncts exercised on concrete cycles — a
fully successful cycle, a single-element all-successful prefix, a
failed transfer cycle (empty sensor reply), and a run that already
reached the target. -/
theorem C6_witness :
    detectLoop 1 0 [] [⟨List.replicate 8 false ++ [true], [], true,
        writePacket 0 PACKET_ACK [0] ++ writePacket 0 PACKET_DATA_END [5, 6], none⟩] =
      ([Event.flushUart, Event.httpOpen (detectHeaders 1 0), Event.writePacket [],
        Event.httpFinish, Event.waitLift, Event.flushUart] ++ (detectLoop 1 1 [] []).1,
       (detectLoop 1 1 [] []).2) ∧
    (∃ es, detectLoop 1 0 [] ([⟨List.replicate 8 false ++ [true], [], true,
        writePacket 0 PACKET_ACK [0] ++ writePacket 0 PACKET_DATA_END [5, 6], none⟩] ++ []) =
      (es ++ (detectLoop 1 ([⟨List.replicate 8 false ++ [true], [], true,
        writePacket 0 PACKET_ACK [0] ++ writePacket 0 PACKET_DATA_END [5, 6], none⟩] :
          List Cycle).length [] []).1,
       (detectLoop 1 ([⟨List.replicate 8 false ++ [true], [], true,
        writePacket 0 PACKET_ACK [0] ++ writePacket 0 PACKET_DATA_END [5, 6], none⟩] :
          List Cycle).length [] []).2)) ∧
    detectLoop 1 0 [] [⟨List.replicate 8 false ++ [true], [], true, [], none⟩] =
      ([Event.flushUart, Event.httpOpen (detectHeaders 1 0), Event.writePacket [],
        Event.httpFinish, Event.waitLift, Event.flushUart] ++ (detectLoop 1 0 [] []).1,
       (detectLoop 1 0 [] []).2) ∧
    ("X-Filename", toString 1 ++ "_" ++ toString (0 + 1)) ∈ detectHeaders 1 0 ∧
    detectLoop 9 SAMPLES_PER_PERSON [] [] = ([], ModeResult.completed SAMPLES_PER_PERSON) ∧
    3 = SAMPLES_PER_PERSON := by
  refine ⟨?_, ?_, ?_, ?_, ?_, ?_⟩
  · exact C6_collected_counter.1 1 0 []
      ⟨List.replicate 8 false ++ [true], [], true,
        writePacket 0 PACKET_ACK [0] ++ writePacket 0 PACKET_DATA_END [5, 6], none⟩ [] 2
      (by decide) (by rfl) (by rfl) (by rfl) (by rfl)
  · exact C6_collected_counter.2.1 1
      [⟨List.replicate 8 false ++ [true], [], true,
        writePacket 0 PACKET_ACK [0] ++ writePacket 0 PACKET_DATA_END [5, 6], none⟩] [] []
      (by intro c hm
          simp only [List.mem_singleton] at hm
          subst hm
          exact ⟨by rfl, by rfl, ⟨2, by rfl⟩, by rfl⟩)
      (by decide)
  · exact C6_collected_counter.2.2.1 1 0 []
      ⟨List.replicate 8 false ++ [true], [], true, [], none⟩ []
      (SErr.protocol DErr.timeoutHeader)
      (by decide) (by rfl) (by rfl) (by rfl) (by rfl)
  · exact C6_collected_counter.2.2.2.1 1 0
  · exact C6_collected_counter.2.2.2.2.1 9 [] []
  · exact C6_collected_counter.2.2.2.2.2 [] 9 SAMPLES_PER_PERSON [] 3
      (Nat.le_refl _) (by rfl)

/-- C8 (amended): during the initial `ensure_idle` debounce phase the
interrupt channel is not checked — if the probe horizon ends inside the
debounce the command state comes back untouched (first conjunct) — and
in the main polling loop of `wait_for_finger` the channel is sampled
once per polling cycle: a pending stop/quit/exit command makes the
function return Aborted with that command (second conjunct), a
non-stop sample is consumed and polling continues (third conjunct), and
a present finger returns Ready without sampling (fourth conjunct).
When a cycle's `wait_for_finger` aborts, the capture cycle ends with an
empty event trace, so no network connection is opened for that cycle
(fifth and sixth conjuncts). -/
theorem C8_wait_finger_interrupts :
    (∀ (probes : List Bool) (cmds : List (Option String)),
      ensureIdle probes none 0 = none →
      wait_for_finger probes cmds = (WFR.stuck, cmds)) ∧
    (∀ (probes : List Bool) (ps' : List Bool) (c : String) (cs : List (Option String)),
      ensureIdle probes none 0 = some (false :: ps') →
      stopLike (some c) = true →
      wait_for_finger probes (some c :: cs) = (WFR.aborted c, cs)) ∧
    (∀ (ps : List Bool) (c : Option String) (cs : List (Option String)),
      stopLike c = false →
      fingerWait (false :: ps) (c :: cs) = fingerWait ps cs) ∧
    (∀ (ps : List Bool) (cmds : List (Option String)),
      fingerWait (true :: ps) cmds = (WFR.ready, cmds)) ∧
    (∀ (personId collected : Nat) (pending : List Nat) (cy : Cycle)
        (rest : List Cycle) (c : String),
      collected < SAMPLES_PER_PERSON →
      (wait_for_finger cy.probes cy.fingerCmds).1 = WFR.aborted c →
      detectLoop personId collected pending (cy :: rest) = ([], ModeResult.aborted c)) ∧
    (∀ (counter : Nat) (pending : List Nat) (cy : Cycle) (rest : List Cycle) (c : String),
      (wait_for_finger cy.probes cy.fingerCmds).1 = WFR.aborted c →
      clsLoop counter pending (cy :: rest) = ([], ModeResult.aborted c)) := by
  refine ⟨?_, ?_, ?_, ?_, ?_, ?_⟩
  · intro probes cmds h
    rw [wait_for_finger, h]
  · intro probes ps' c cs h hstop
    rw [wait_for_finger, h]
    simp [fingerWait, hstop]
  · intro ps c cs hc
    simp [fingerWait, hc]
  · intro ps cmds
    rfl
  · intro personId collected pending cy rest c hc habort
    rw [detectLoop, if_neg (Nat.not_le.mpr hc), habort]
  · intro counter pending cy rest c habort
    simp only [clsLoop, habort]

/-- C8 counterexample: with the finger resting on the sensor for the
whole five-cycle probe horizon, `wait_for_finger` never leaves the
`ensure_idle` debounce phase, and a stop command pending from the very
first polling cycle is never sampled: the command channel comes back
untouched and no Aborted result is produced — refuting the claim that
the interrupt channel is checked on every polling cycle including the
debounce phase. -/
theorem C8_counterexample :
    wait_for_finger (List.replicate 5 true) [some "stop"] = (WFR.stuck, [some "stop"]) ∧
    (wait_for_finger (List.replicate 5 true) [some "stop"]).1 ≠ WFR.aborted "stop" :=
  ⟨by rfl, by decide⟩

/-- C8 witness: the six conjuncts at concrete probe and command
traces. -/
theorem C8_witness :
    wait_for_finger [] [none] = (WFR.stuck, [none]) ∧
    wait_for_finger (List.replicate 8 false ++ [false]) [some "stop"] =
      (WFR.aborted "stop", []) ∧
    fingerWait [false] [none] = fingerWait [] [] ∧
    fingerWait [true] [some "x"] = (WFR.ready, [some "x"]) ∧
    detectLoop 1 0 [] [⟨List.replicate 8 false ++ [false], [some "stop"], true, [], none⟩] =
      ([], ModeResult.aborted "stop") ∧
    clsLoop 1 [] [⟨List.replicate 8 false ++ [false], [some "quit"], true, [], none⟩] =
      ([], ModeResult.aborted "quit") :=
  ⟨C8_wait_finger_interrupts.1 [] [none] (by rfl),
    C8_wait_finger_interrupts.2.1 (List.replicate 8 false ++ [false]) [] "stop" []
      (by rfl) (by rfl),
    C8_wait_finger_interrupts.2.2.1 [] none [] (by rfl),
    C8_wait_finger_interrupts.2.2.2.1 [] [some "x"],
    C8_wait_finger_interrupts.2.2.2.2.1 1 0 []
      ⟨List.replicate 8 false ++ [false], [some "stop"], true, [], none⟩ [] "stop"
      (by decide) (by rfl),
    C8_wait_finger_interrupts.2.2.2.2.2 1 []
      ⟨List.replicate 8 false ++ [false], [some "quit"], true, [], none⟩ [] "quit"
      (by rfl)⟩

/-- C7 witness: the theorem applied to concrete one-cycle runs of both
modes. -/
theorem C7_witness :
    ("X-Person-Id", toString 4) ∈ detectHeaders 4 0 ∧
    ("X-Mode", "cls").1 ≠ "X-Person-Id" :=
  ⟨C7_person_id_header.1 4 0 []
      [⟨List.replicate 8 false ++ [true], [], true, [], none⟩]
      (detectHeaders 4 0) (by decide),
    C7_person_id_header.2 5 []
      [⟨List.replicate 8 false ++ [true], [], true, [], none⟩]
      (clsHeaders 5) (by decide) ("X-Mode", "cls") (by decide)⟩

end AFIS
